import Mathlib

/-!
# Verification of the percy-node build orchestration client

A shallow embedding, in Lean 4, of the behaviours of
`src/percy-node-client.js` that the specification talks about:

* the bounded-retry poll state machine (`retry` / `checkBuildStatus`),
* the resource-manifest construction (`gatherBuildResources`),
* the missing-resource upload driver (`uploadMissingResources`),
* breakpoint-name resolution (`getWidthsFromBreakpointNames`),
* the missing-resource response parser (`parseMissingResources`),
* the asynchronous ordering structure of `uploadHtml`, `snapshot` and
  `finalizeBuild`, modelled by explicit settle times of the promises the
  source awaits (a continuation scheduled on a promise runs at a time
  that is at least the promise's settle time; arbitrary extra scheduling
  delays are universally quantified).

JavaScript `undefined` is modelled by `Option`, JS truthiness tests are
spelled out at each use site, and `process.exit(2)` (the fatal path
through `handleError` / `handlePercyFailure`) is modelled as a terminal
`exited` outcome: statements that appear after an exit in the source are
not reached and hence do not appear in the corresponding branch here.
-/

namespace Percy

/-! ## Poll state machine: `retry` and `checkBuildStatus` -/

/-- `let MAX_RETRIES_WHEN_PROCESSING = 1000` in the source. -/
def MAX_RETRIES_WHEN_PROCESSING : Nat := 1000

/-- The `attributes` object of a get-build response
(`response.body.data.attributes`).  The source reads `state`,
`total-comparisons-diff`, `web-url` and `failure-reason`. -/
structure BuildAttributes where
  state : String
  totalComparisonsDiff : Nat
  webUrl : String
  failureReason : String
deriving Repr, DecidableEq

/-- Terminal outcome of the poll loop started by `getBuildPromise`.
`resolved` means the promise's `resolve` was called; `exited code args`
means `handleError(...args)` ran `process.exit(code)` (so `resolve` was
never reached); `hung` means no branch of `checkBuildStatus` matched the
returned state, so the promise never settles. -/
inductive PollOutcome where
  | resolved : PollOutcome
  | exited (code : Nat) (args : List String) : PollOutcome
  | hung : PollOutcome
deriving Repr, DecidableEq

/-- The observable result of running the poll loop to its end:
the terminal outcome, the number of `percyClient.getBuild` calls issued,
and the `logger.log` messages emitted. -/
structure PollResult where
  outcome : PollOutcome
  polls : Nat
  logs : List String
deriving Repr, DecidableEq

/-- `retry(buildId, numRetries, resolve)`: schedule another
`checkBuildStatus` with `numRetries + 1` when below the maximum,
otherwise take the fatal path.  `some next` is the
`setTimeout(checkBuildStatus, 1000, buildId, numRetries + 1, resolve)`
branch, `none` the `handleError('Retries exceeded. Exiting.')` branch. -/
def retry (numRetries : Nat) : Option Nat :=
  if numRetries < MAX_RETRIES_WHEN_PROCESSING then some (numRetries + 1)
  else none

/-- `checkBuildStatus(buildId, numRetries, resolve)`.  `getBuild i` is
the `attributes` of the response to the `i`-th status query (the query
issued by the call whose counter is `i`).  Each invocation issues exactly
one `percyClient.getBuild` call, so `polls` counts status queries. -/
def checkBuildStatus (getBuild : Nat → BuildAttributes) (numRetries : Nat) :
    PollResult :=
  let attributes := getBuild numRetries
  if attributes.state = "processing" ∨ attributes.state = "pending" then
    match h : retry numRetries with
    | some next =>
        let r := checkBuildStatus getBuild next
        { r with polls := r.polls + 1 }
    | none =>
        { outcome := PollOutcome.exited 2 ["Retries exceeded. Exiting."],
          polls := 1, logs := [] }
  else if attributes.state = "finished" then
    let totalDiffs := attributes.totalComparisonsDiff
    if totalDiffs ≠ 0 then
      let url := attributes.webUrl
      { outcome := PollOutcome.exited 2
          ["percy", s!"diffs found: {totalDiffs}. Check {url}"],
        polls := 1, logs := [] }
    else
      { outcome := PollOutcome.resolved, polls := 1,
        logs := ["Hooray! The build is successful with no diffs. \\o/"] }
  else if attributes.state = "failed" then
    let reason := attributes.failureReason
    { outcome := PollOutcome.exited 2 ["percy", s!"build failed: {reason}"],
      polls := 1, logs := [] }
  else
    { outcome := PollOutcome.hung, polls := 1, logs := [] }
termination_by MAX_RETRIES_WHEN_PROCESSING + 1 - numRetries
decreasing_by
  simp only [retry] at h
  split at h
  · injection h with h'
    omega
  · exact absurd h (by simp)

/-- A status sequence that never leaves `pending`. -/
def alwaysPending : Nat → BuildAttributes := fun _ =>
  { state := "pending", totalComparisonsDiff := 0, webUrl := "",
    failureReason := "" }

/-- A status sequence that immediately reports `finished` with 5 diffs. -/
def finishedWithDiffs : Nat → BuildAttributes := fun _ =>
  { state := "finished", totalComparisonsDiff := 5,
    webUrl := "https://percy.io/foo/bar/builds/123", failureReason := "" }

/-- A constant status sequence. -/
def constStatus (attrs : BuildAttributes) : Nat → BuildAttributes := fun _ => attrs

/-- Under a status sequence that stays in `pending`/`processing`, the call
with counter `n` such that `n + k = 1000` issues `k + 1` further status
queries and ends in the fatal retries-exceeded exit. -/
theorem checkBuildStatus_pending_exceeds (getBuild : Nat → BuildAttributes)
    (hp : ∀ i, (getBuild i).state = "processing" ∨ (getBuild i).state = "pending") :
    ∀ k n, n + k = MAX_RETRIES_WHEN_PROCESSING →
      checkBuildStatus getBuild n =
        { outcome := PollOutcome.exited 2 ["Retries exceeded. Exiting."],
          polls := k + 1, logs := [] } := by
  intro k
  induction k with
  | zero =>
    intro n hn
    unfold checkBuildStatus
    rw [if_pos (hp n)]
    split
    · rename_i next hsome
      exfalso
      unfold retry at hsome
      rw [if_neg (by omega)] at hsome
      simp at hsome
    · rfl
  | succ k ih =>
    intro n hn
    unfold checkBuildStatus
    rw [if_pos (hp n)]
    split
    · rename_i next hsome
      unfold retry at hsome
      rw [if_pos (by omega)] at hsome
      injection hsome with hnext
      subst hnext
      rw [ih (n + 1) (by omega)]
    · rename_i hnone
      exfalso
      unfold retry at hnone
      rw [if_pos (by omega)] at hnone
      simp at hnone

/-- C3, counterexample: under a status sequence that never leaves
`pending`, the poll loop started by `getBuildPromise` (counter 0) issues
1001 status queries — not 1000 as the claim states — before the fatal
"Retries exceeded. Exiting." exit. -/
theorem c3_counterexample :
    (checkBuildStatus alwaysPending 0).polls = 1001 ∧
      ¬ (checkBuildStatus alwaysPending 0).polls = 1000 := by
  have h := checkBuildStatus_pending_exceeds alwaysPending
    (fun _ => Or.inr rfl) 1000 0 (by decide)
  rw [h]
  exact ⟨rfl, by decide⟩

/-- C3, amended: in the poll state machine, if every status query returns
a state in {pending, processing}, then once the retry counter reaches the
fixed maximum of 1000 the system stops polling and exits fatally with
"Retries exceeded. Exiting."; under such a sequence exactly 1001 status
queries (the initial one plus 1000 retries) are issued before the fatal
error. -/
theorem c3_retries_exceeded (getBuild : Nat → BuildAttributes)
    (hp : ∀ i, (getBuild i).state = "processing" ∨ (getBuild i).state = "pending") :
    (checkBuildStatus getBuild 0).outcome =
        PollOutcome.exited 2 ["Retries exceeded. Exiting."] ∧
      (checkBuildStatus getBuild 0).polls = 1001 := by
  have h := checkBuildStatus_pending_exceeds getBuild hp 1000 0 (by decide)
  rw [h]
  exact ⟨rfl, rfl⟩

/-- Witness for C3's amended theorem, at the always-`pending` sequence. -/
theorem c3_retries_exceeded_witness :
    (checkBuildStatus alwaysPending 0).outcome =
        PollOutcome.exited 2 ["Retries exceeded. Exiting."] ∧
      (checkBuildStatus alwaysPending 0).polls = 1001 :=
  c3_retries_exceeded alwaysPending (fun _ => Or.inr rfl)

/-- C4, counterexample: when the first status poll returns `finished`
with 5 diffs, the poll loop does not resolve: `handleError` exits the
process with code 2 (citing the diff count and the report url) before
the `resolve()` statement is reached. -/
theorem c4_counterexample :
    (checkBuildStatus finishedWithDiffs 0).outcome =
        PollOutcome.exited 2
          ["percy", "diffs found: 5. Check https://percy.io/foo/bar/builds/123"] ∧
      ¬ (checkBuildStatus finishedWithDiffs 0).outcome = PollOutcome.resolved := by
  have h : checkBuildStatus finishedWithDiffs 0 =
      { outcome := PollOutcome.exited 2
          ["percy", "diffs found: 5. Check https://percy.io/foo/bar/builds/123"],
        polls := 1, logs := [] } := by
    unfold checkBuildStatus
    decide
  rw [h]
  exact ⟨rfl, by decide⟩

/-- C4, amended: when a status poll returns state `finished` with a diff
count greater than 0, the poll loop reports the failure by calling the
fatal error handler with a message citing the diff count and the report
url, and that handler terminates the process with exit code 2; the
`resolve()` call that follows is never reached, so the poll's promise is
not resolved. -/
theorem c4_diffs_found_exits (attrs : BuildAttributes)
    (hstate : attrs.state = "finished")
    (hdiffs : attrs.totalComparisonsDiff ≠ 0) :
    checkBuildStatus (constStatus attrs) 0 =
      { outcome := PollOutcome.exited 2
          ["percy", s!"diffs found: {attrs.totalComparisonsDiff}. Check {attrs.webUrl}"],
        polls := 1, logs := [] } := by
  unfold checkBuildStatus
  simp [constStatus, hstate, hdiffs]

/-- Witness for C4's amended theorem, at a `finished` response with 5
diffs. -/
theorem c4_diffs_found_exits_witness :
    checkBuildStatus (constStatus (finishedWithDiffs 0)) 0 =
      { outcome := PollOutcome.exited 2
          ["percy", "diffs found: 5. Check https://percy.io/foo/bar/builds/123"],
        polls := 1, logs := [] } := by
  have h := c4_diffs_found_exits (finishedWithDiffs 0) rfl (by decide)
  rw [h]
  decide

/-! ## Manifest builder: `gatherBuildResources` -/

/-- `const MAX_FILE_SIZE_BYTES = 15728640;  // 15MB.` -/
def MAX_FILE_SIZE_BYTES : Nat := 15728640

/-- A file found by `globby.sync(buildDirs, {absolute: true, nodir: true})`,
together with what `fs.statSync` and `fs.readFileSync` return for it. -/
structure FileItem where
  absolutePath : String
  size : Nat
  content : String
deriving Repr, DecidableEq

/-- The resource object built by `percyClient.makeResource` in
`gatherBuildResources` (the fields the core later reads). -/
structure Resource where
  resourceUrl : String
  sha : String
  localPath : String
deriving Repr, DecidableEq

/-- Remove the first occurrence of `pat` from a character list
(JavaScript `String.prototype.replace` with a string pattern and empty
replacement: only the first occurrence is replaced; an absent pattern
leaves the string unchanged). -/
def listRemoveFirst (pat : List Char) : List Char → List Char
  | [] => []
  | c :: rest =>
    if pat.isPrefixOf (c :: rest) then (c :: rest).drop pat.length
    else c :: listRemoveFirst pat rest

/-- `resourceUrl.replace(rootDir, '')` for strings. -/
def replaceFirstWithEmpty (s pat : String) : String :=
  String.mk (listRemoveFirst pat.data s.data)

/-- The url computation of `gatherBuildResources`: strip each configured
root directory, then ensure a leading `/`
(`if (resourceUrl.charAt(0) !== '/') resourceUrl = '/' + resourceUrl`). -/
def computeResourceUrl (rootDirs : List String) (absolutePath : String) : String :=
  let u := rootDirs.foldl (fun acc rootDir => replaceFirstWithEmpty acc rootDir)
    absolutePath
  if u.data.head? = some '/' then u else "/" ++ u

/-- JavaScript object assignment `dict[key] = val` on a string-keyed
object: overwrite in place when the key exists, append otherwise. -/
def dictSet (dict : List (String × Resource)) (key : String) (val : Resource) :
    List (String × Resource) :=
  match dict with
  | [] => [(key, val)]
  | (k, v) :: rest =>
    if k = key then (k, val) :: rest else (k, v) :: dictSet rest key val

/-- JavaScript property read `dict[key]` (`undefined` = `none`). -/
def dictGet (dict : List (String × Resource)) (key : String) : Option Resource :=
  match dict with
  | [] => none
  | (k, v) :: rest => if k = key then some v else dictGet rest key

/-- The `hashToResource` object of `gatherBuildResources` together with
the `console.warn` messages emitted while building it. -/
structure Manifest where
  dict : List (String × Resource)
  warnings : List String
deriving Repr, DecidableEq

/-- The body of the `for` loop of `gatherBuildResources` for one matched
path.  `sha256` abstracts `crypto.createHash('sha256')` over the file's
content, `encodeURI` the JavaScript `encodeURI` builtin. -/
def gatherStep (sha256 : String → String) (encodeURI : String → String)
    (rootDirs : List String) (acc : Manifest) (file : FileItem) : Manifest :=
  let resourceUrl := computeResourceUrl rootDirs file.absolutePath
  if file.size > MAX_FILE_SIZE_BYTES then
    { acc with warnings := acc.warnings ++
        ["\n[percy][WARNING] Skipping large build resource: " ++ resourceUrl] }
  else
    let sha := sha256 file.content
    let resource : Resource :=
      { resourceUrl := encodeURI resourceUrl, sha := sha,
        localPath := file.absolutePath }
    { acc with dict := dictSet acc.dict sha resource }

/-- `gatherBuildResources(percyClient, buildDirs, rootDirs)`: walk the
matched paths in order and build the hash-keyed resource manifest. -/
def gatherBuildResources (sha256 : String → String) (encodeURI : String → String)
    (rootDirs : List String) (paths : List FileItem) : Manifest :=
  paths.foldl (gatherStep sha256 encodeURI rootDirs)
    { dict := [], warnings := [] }

/-- A missing-resource entry of a create-build / create-snapshot response
(`{id: <hash>}`). -/
structure MissingResource where
  id : String
deriving Repr, DecidableEq

/-- `uploadMissingResources(buildId, missingResources, resourceManifestDict)`:
the promise-pool generator walks `missingResources` in order, looks each
id up in the manifest dict and uploads the file read from the resource's
`localPath`.  Returns the resources uploaded, or `none` when an id is
absent from the dict (the source would throw a `TypeError` reading
`resource.localPath` of `undefined`). -/
def uploadMissingResources (missingResources : List MissingResource)
    (resourceManifestDict : List (String × Resource)) : Option (List Resource) :=
  match missingResources with
  | [] => some []
  | missingResource :: rest =>
    match dictGet resourceManifestDict missingResource.id with
    | none => none
    | some resource =>
      (uploadMissingResources rest resourceManifestDict).map
        (fun uploads => resource :: uploads)

/-- Membership after a JS object assignment: an entry of the updated
dict is an old entry or the assigned pair. -/
theorem dictSet_mem {dict : List (String × Resource)} {key : String}
    {val : Resource} {p : String × Resource} (hp : p ∈ dictSet dict key val) :
    p ∈ dict ∨ p = (key, val) := by
  induction dict with
  | nil => simpa [dictSet] using hp
  | cons head rest ih =>
    obtain ⟨k, v⟩ := head
    rw [dictSet] at hp
    split at hp
    · rcases List.mem_cons.mp hp with h | h
      · exact Or.inr (by rename_i hk; rw [h, hk])
      · exact Or.inl (List.mem_cons_of_mem _ h)
    · rcases List.mem_cons.mp hp with h | h
      · exact Or.inl (h ▸ List.mem_cons_self _ _)
      · rcases ih h with h' | h'
        · exact Or.inl (List.mem_cons_of_mem _ h')
        · exact Or.inr h'

/-- The keys after a JS object assignment are the old keys plus the
assigned key. -/
theorem dictSet_keys_mem {dict : List (String × Resource)} {key : String}
    {val : Resource} {k' : String} :
    k' ∈ (dictSet dict key val).map Prod.fst ↔
      k' ∈ dict.map Prod.fst ∨ k' = key := by
  induction dict with
  | nil => simp [dictSet]
  | cons head rest ih =>
    obtain ⟨k, v⟩ := head
    rw [dictSet]
    split
    · rename_i hk
      subst hk
      simp only [List.map_cons, List.mem_cons]
      tauto
    · simp only [List.map_cons, List.mem_cons, ih]
      tauto

/-- A JS object assignment keeps the keys of the object pairwise
distinct. -/
theorem dictSet_keys_nodup {dict : List (String × Resource)} {key : String}
    {val : Resource} (h : (dict.map Prod.fst).Nodup) :
    ((dictSet dict key val).map Prod.fst).Nodup := by
  induction dict with
  | nil => simp [dictSet]
  | cons head rest ih =>
    obtain ⟨k, v⟩ := head
    simp only [List.map_cons, List.nodup_cons] at h
    rw [dictSet]
    split
    · rename_i hk
      subst hk
      simp only [List.map_cons, List.nodup_cons]
      exact h
    · rename_i hk
      simp only [List.map_cons, List.nodup_cons]
      constructor
      · intro hmem
        rcases dictSet_keys_mem.mp hmem with h' | h'
        · exact h.1 h'
        · exact hk h'
      · exact ih h.2

/-- Every upload issued by `uploadMissingResources` is of a resource
stored in the manifest dict. -/
theorem uploadMissingResources_mem {missingResources : List MissingResource}
    {dict : List (String × Resource)} {uploads : List Resource}
    (h : uploadMissingResources missingResources dict = some uploads) :
    ∀ r ∈ uploads, ∃ k, (k, r) ∈ dict := by
  induction missingResources generalizing uploads with
  | nil =>
    rw [uploadMissingResources] at h
    injection h with h
    subst h
    intro r hr
    exact absurd hr (List.not_mem_nil r)
  | cons m rest ih =>
    rw [uploadMissingResources] at h
    rcases hg : dictGet dict m.id with _ | resource
    · rw [hg] at h
      exact absurd h (by simp)
    · rw [hg] at h
      rcases hrest : uploadMissingResources rest dict with _ | l
      · rw [hrest] at h
        exact absurd h (by simp)
      · rw [hrest] at h
        simp only [Option.map_some] at h
        injection h with h
        subst h
        intro r hr
        rcases List.mem_cons.mp hr with h' | h'
        · subst h'
          refine ⟨m.id, ?_⟩
          clear ih hrest
          induction dict with
          | nil => simp [dictGet] at hg
          | cons head tail ihd =>
            obtain ⟨k, v⟩ := head
            rw [dictGet] at hg
            split at hg
            · rename_i hk
              injection hg with hg
              subst hg hk
              exact List.mem_cons_self _ _
            · exact List.mem_cons_of_mem _ (ihd hg)
        · exact ih hrest r h'

/-- Warnings accumulated by the manifest walk only grow. -/
theorem gather_warnings_mono (sha256 encodeURI : String → String)
    (rootDirs : List String) (paths : List FileItem) (acc : Manifest)
    {w : String} (hw : w ∈ acc.warnings) :
    w ∈ (paths.foldl (gatherStep sha256 encodeURI rootDirs) acc).warnings := by
  induction paths generalizing acc with
  | nil => simpa using hw
  | cons f rest ih =>
    rw [List.foldl_cons]
    apply ih
    simp only [gatherStep]
    split
    · exact List.mem_append_left _ hw
    · exact hw

/-- Keys present in the manifest dict stay present as the walk continues. -/
theorem gather_keys_mono (sha256 encodeURI : String → String)
    (rootDirs : List String) (paths : List FileItem) (acc : Manifest)
    {k : String} (hk : k ∈ acc.dict.map Prod.fst) :
    k ∈ (paths.foldl (gatherStep sha256 encodeURI rootDirs) acc).dict.map Prod.fst := by
  induction paths generalizing acc with
  | nil => simpa using hk
  | cons f rest ih =>
    rw [List.foldl_cons]
    apply ih
    simp only [gatherStep]
    split
    · exact hk
    · exact dictSet_keys_mem.mpr (Or.inl hk)

/-- The manifest walk keeps the dict's keys pairwise distinct. -/
theorem gather_keys_nodup (sha256 encodeURI : String → String)
    (rootDirs : List String) (paths : List FileItem) (acc : Manifest)
    (h : (acc.dict.map Prod.fst).Nodup) :
    ((paths.foldl (gatherStep sha256 encodeURI rootDirs) acc).dict.map Prod.fst).Nodup := by
  induction paths generalizing acc with
  | nil => simpa using h
  | cons f rest ih =>
    rw [List.foldl_cons]
    apply ih
    simp only [gatherStep]
    split
    · exact h
    · exact dictSet_keys_nodup h

/-- A file that the walk does not skip contributes its content hash as a
key of the manifest dict. -/
theorem gather_key_mem (sha256 encodeURI : String → String)
    (rootDirs : List String) (paths : List FileItem) (acc : Manifest)
    {f : FileItem} (hf : f ∈ paths) (hsize : ¬ f.size > MAX_FILE_SIZE_BYTES) :
    sha256 f.content ∈
      (paths.foldl (gatherStep sha256 encodeURI rootDirs) acc).dict.map Prod.fst := by
  induction paths generalizing acc with
  | nil => exact absurd hf (List.not_mem_nil f)
  | cons g rest ih =>
    rw [List.foldl_cons]
    rcases List.mem_cons.mp hf with hg | hg
    · subst hg
      apply gather_keys_mono
      simp only [gatherStep]
      rw [if_neg hsize]
      exact dictSet_keys_mem.mpr (Or.inr rfl)
    · exact ih _ hg

/-- Every entry of the manifest dict comes from a processed file that was
not skipped, or was already in the accumulator. -/
theorem gather_dict_localPath (sha256 encodeURI : String → String)
    (rootDirs : List String) (paths : List FileItem) (acc : Manifest)
    {p : String × Resource}
    (hp : p ∈ (paths.foldl (gatherStep sha256 encodeURI rootDirs) acc).dict) :
    p ∈ acc.dict ∨ ∃ g, g ∈ paths ∧ ¬ g.size > MAX_FILE_SIZE_BYTES ∧
      p.2.localPath = g.absolutePath := by
  induction paths generalizing acc with
  | nil => exact Or.inl (by simpa using hp)
  | cons f rest ih =>
    rw [List.foldl_cons] at hp
    rcases ih _ hp with h | h
    · simp only [gatherStep] at h
      split at h
      · exact Or.inl h
      · rename_i hsize
        rcases dictSet_mem h with h' | h'
        · exact Or.inl h'
        · refine Or.inr ⟨f, List.mem_cons_self _ _, hsize, ?_⟩
          rw [h']
    · rcases h with ⟨g, hg, hgs, hgp⟩
      exact Or.inr ⟨g, List.mem_cons_of_mem _ hg, hgs, hgp⟩

/-- In a dict with pairwise-distinct keys, a present key is the key of
exactly one entry. -/
theorem filter_key_length_one {l : List (String × Resource)} {k : String}
    (hnd : (l.map Prod.fst).Nodup) (hk : k ∈ l.map Prod.fst) :
    (l.filter (fun p => p.1 == k)).length = 1 := by
  induction l with
  | nil => simp at hk
  | cons head rest ih =>
    simp only [List.map_cons, List.nodup_cons] at hnd
    simp only [List.map_cons, List.mem_cons] at hk
    rcases hk with hk | hk
    · subst hk
      have hrest : rest.filter (fun p => p.1 == head.1) = [] := by
        rw [List.filter_eq_nil_iff]
        intro p hp
        simp only [beq_iff_eq]
        intro hpk
        exact hnd.1 (hpk ▸ List.mem_map_of_mem Prod.fst hp)
      rw [List.filter_cons, if_pos (by simp), hrest]
      rfl
    · have hne : head.1 ≠ k := by
        intro he
        exact hnd.1 (he ▸ hk)
      rw [List.filter_cons, if_neg (by simpa using hne)]
      exact ih hnd.2 hk

/-- A skipped (oversized) file leaves its warning in the manifest walk's
output. -/
theorem gather_warning_mem (sha256 encodeURI : String → String)
    (rootDirs : List String) (paths : List FileItem) (acc : Manifest)
    {f : FileItem} (hf : f ∈ paths) (hsize : f.size > MAX_FILE_SIZE_BYTES) :
    ("\n[percy][WARNING] Skipping large build resource: " ++
        computeResourceUrl rootDirs f.absolutePath) ∈
      (paths.foldl (gatherStep sha256 encodeURI rootDirs) acc).warnings := by
  induction paths generalizing acc with
  | nil => exact absurd hf (List.not_mem_nil f)
  | cons g rest ih =>
    rw [List.foldl_cons]
    rcases List.mem_cons.mp hf with hg | hg
    · subst hg
      apply gather_warnings_mono
      simp only [gatherStep]
      rw [if_pos hsize]
      exact List.mem_append_right _ (List.mem_singleton.mpr rfl)
    · exact ih _ hg

/-- The identity function on strings, used to instantiate the abstract
`sha256` / `encodeURI` parameters at concrete inputs. -/
def idStr : String → String := fun s => s

/-- A file whose size is exactly the 15 MiB threshold. -/
def fileAtThreshold : FileItem :=
  { absolutePath := "/site/assets/big.css", size := 15728640, content := "BIG" }

/-- A file strictly above the 15 MiB threshold. -/
def bigFile : FileItem :=
  { absolutePath := "/assets/huge.bin", size := 15728641, content := "HUGE" }

/-- A small asset file. -/
def smallFile : FileItem :=
  { absolutePath := "/assets/styles.css", size := 10, content := "body" }

/-- C6, counterexample: a matched file whose size is exactly the
threshold (15728640 bytes) is NOT excluded: the skip test of
`gatherBuildResources` is strict (`size > MAX_FILE_SIZE_BYTES`), so the
file gets a manifest entry and no warning is emitted. -/
theorem c6_counterexample :
    (gatherBuildResources idStr idStr [] [fileAtThreshold]).dict =
      [("BIG", { resourceUrl := "/site/assets/big.css", sha := "BIG",
                 localPath := "/site/assets/big.css" })] ∧
      (gatherBuildResources idStr idStr [] [fileAtThreshold]).warnings = [] := by
  exact ⟨rfl, rfl⟩

/-- C6, amended: every matched file whose size is STRICTLY ABOVE the
15 MiB threshold (15728640 bytes) is excluded from the resource manifest
with a warning, and no upload is ever attempted for it (provided no
smaller file shares its path); every matched file of size at most the
threshold gets exactly one manifest entry keyed by its SHA-256 content
hash. -/
theorem c6_size_threshold (sha256 encodeURI : String → String)
    (rootDirs : List String) (paths : List FileItem) (f : FileItem)
    (hf : f ∈ paths) :
    (f.size > MAX_FILE_SIZE_BYTES →
      ("\n[percy][WARNING] Skipping large build resource: " ++
          computeResourceUrl rootDirs f.absolutePath) ∈
        (gatherBuildResources sha256 encodeURI rootDirs paths).warnings ∧
      ((∀ g ∈ paths, g.absolutePath = f.absolutePath →
          g.size > MAX_FILE_SIZE_BYTES) →
        (∀ p ∈ (gatherBuildResources sha256 encodeURI rootDirs paths).dict,
            p.2.localPath ≠ f.absolutePath) ∧
        ∀ ms uploads,
          uploadMissingResources ms
              (gatherBuildResources sha256 encodeURI rootDirs paths).dict =
            some uploads →
          ∀ r ∈ uploads, r.localPath ≠ f.absolutePath)) ∧
    (¬ f.size > MAX_FILE_SIZE_BYTES →
      ((gatherBuildResources sha256 encodeURI rootDirs paths).dict.filter
          (fun p => p.1 == sha256 f.content)).length = 1) := by
  constructor
  · intro hbig
    constructor
    · simp only [gatherBuildResources]
      exact gather_warning_mem sha256 encodeURI rootDirs paths _ hf hbig
    · intro hall
      have hdict : ∀ p ∈ (gatherBuildResources sha256 encodeURI rootDirs paths).dict,
          p.2.localPath ≠ f.absolutePath := by
        intro p hp hpath
        simp only [gatherBuildResources] at hp
        rcases gather_dict_localPath sha256 encodeURI rootDirs paths _ hp with
          h | ⟨g, hg, hgs, hgp⟩
        · simp at h
        · exact hgs (hall g hg (by rw [← hgp]; exact hpath))
      refine ⟨hdict, ?_⟩
      intro ms uploads hup r hr hpath
      rcases uploadMissingResources_mem hup r hr with ⟨k, hk⟩
      exact hdict (k, r) hk hpath
  · intro hsmall
    apply filter_key_length_one
    · simp only [gatherBuildResources]
      exact gather_keys_nodup sha256 encodeURI rootDirs paths _ (by simp)
    · simp only [gatherBuildResources]
      exact gather_key_mem sha256 encodeURI rootDirs paths _ hf hsmall

/-- Witness for C6's amended theorem: with one oversized file and one
small file, the oversized file's warning is present, no manifest entry
carries its path, and the small file has exactly one entry under its
hash. -/
theorem c6_size_threshold_witness :
    ("\n[percy][WARNING] Skipping large build resource: " ++
        computeResourceUrl [] bigFile.absolutePath) ∈
      (gatherBuildResources idStr idStr [] [bigFile, smallFile]).warnings ∧
    (∀ p ∈ (gatherBuildResources idStr idStr [] [bigFile, smallFile]).dict,
        p.2.localPath ≠ bigFile.absolutePath) ∧
    ((gatherBuildResources idStr idStr [] [bigFile, smallFile]).dict.filter
        (fun p => p.1 == idStr smallFile.content)).length = 1 := by
  refine ⟨?_, ?_, ?_⟩
  · exact ((c6_size_threshold idStr idStr [] [bigFile, smallFile] bigFile
      (by decide)).1 (by decide)).1
  · exact (((c6_size_threshold idStr idStr [] [bigFile, smallFile] bigFile
      (by decide)).1 (by decide)).2 (by decide)).1
  · exact (c6_size_threshold idStr idStr [] [bigFile, smallFile] smallFile
      (by decide)).2 (by decide)

/-! ## Breakpoint resolution: `getWidthsFromBreakpointNames` -/

/-- JS property read `registeredBreakpoints[breakpointName]`
(`undefined` = `none`). -/
def lookupBreakpoint : List (String × Nat) → String → Option Nat
  | [], _ => none
  | (k, v) :: rest, breakpointName =>
    if k = breakpointName then some v else lookupBreakpoint rest breakpointName

/-- JS truthiness of `parseInt(breakpointWidth)`: `parseInt(undefined)`
is `NaN` (falsy); a number is falsy exactly when it is `0`. -/
def jsTruthyParseInt : Option Nat → Bool
  | none => false
  | some w => w != 0

/-- The `console.error` template literal of
`getWidthsFromBreakpointNames` (it spans two source lines). -/
def breakpointErrorMessage (breakpointName : String) : String :=
  "[percy] Breakpoint name \"" ++ breakpointName ++
    "\"\n            is not defined in Percy config."

/-- The `widths` list built by `getWidthsFromBreakpointNames` together
with the `console.error` messages emitted while building it.  A width is
an `Option Nat` because the source pushes the looked-up value even when
the lookup produced `undefined`. -/
structure WidthsResult where
  widths : List (Option Nat)
  errors : List String
deriving Repr, DecidableEq

/-- One iteration of the loop of `getWidthsFromBreakpointNames`: look the
name up, log an error when `parseInt` of the value is falsy, and push the
value unless it is already present (`widths.indexOf(breakpointWidth) === -1`). -/
def widthsStep (registeredBreakpoints : List (String × Nat))
    (acc : WidthsResult) (breakpointName : String) : WidthsResult :=
  let breakpointWidth := lookupBreakpoint registeredBreakpoints breakpointName
  let errors :=
    if jsTruthyParseInt breakpointWidth then acc.errors
    else acc.errors ++ [breakpointErrorMessage breakpointName]
  let widths :=
    if breakpointWidth ∈ acc.widths then acc.widths
    else acc.widths ++ [breakpointWidth]
  { widths := widths, errors := errors }

/-- `getWidthsFromBreakpointNames(breakpointNamesList)`. -/
def getWidthsFromBreakpointNames (registeredBreakpoints : List (String × Nat))
    (breakpointNamesList : List String) : WidthsResult :=
  breakpointNamesList.foldl (widthsStep registeredBreakpoints)
    { widths := [], errors := [] }

/-- Keep the first occurrence of every element, dropping later
duplicates. -/
def dedupStep (acc : List (Option Nat)) (w : Option Nat) : List (Option Nat) :=
  if w ∈ acc then acc else acc ++ [w]

/-- First-seen-order deduplication of a list. -/
def dedupKeepFirst (l : List (Option Nat)) : List (Option Nat) :=
  l.foldl dedupStep []

/-- The widths list computed by the loop is the first-seen deduplication
of the looked-up values, continued from the accumulator. -/
theorem widths_foldl_decompose (registeredBreakpoints : List (String × Nat))
    (names : List String) (acc : WidthsResult) :
    (names.foldl (widthsStep registeredBreakpoints) acc).widths =
      (names.map (lookupBreakpoint registeredBreakpoints)).foldl dedupStep
        acc.widths := by
  induction names generalizing acc with
  | nil => rfl
  | cons n rest ih =>
    rw [List.foldl_cons, List.map_cons, List.foldl_cons, ih]
    rfl

/-- The error log computed by the loop is one message per name whose
looked-up value is falsy, in input order. -/
theorem errors_foldl_decompose (registeredBreakpoints : List (String × Nat))
    (names : List String) (acc : WidthsResult) :
    (names.foldl (widthsStep registeredBreakpoints) acc).errors =
      acc.errors ++
        (names.filter (fun n =>
          !jsTruthyParseInt (lookupBreakpoint registeredBreakpoints n))).map
          breakpointErrorMessage := by
  induction names generalizing acc with
  | nil => simp
  | cons n rest ih =>
    rw [List.foldl_cons, ih, List.filter_cons]
    by_cases ht : jsTruthyParseInt (lookupBreakpoint registeredBreakpoints n)
    · rw [if_neg (by simp [ht])]
      simp only [widthsStep]
      rw [if_pos ht]
    · rw [if_pos (by simp [ht])]
      simp only [widthsStep]
      rw [if_neg ht]
      simp

/-- Membership in a `dedupStep` fold: exactly the accumulator's elements
and the traversed elements. -/
theorem mem_foldl_dedupStep (l : List (Option Nat)) (acc : List (Option Nat))
    (w : Option Nat) :
    w ∈ l.foldl dedupStep acc ↔ w ∈ acc ∨ w ∈ l := by
  induction l generalizing acc with
  | nil => simp
  | cons x rest ih =>
    rw [List.foldl_cons, ih]
    have hx : w ∈ dedupStep acc x ↔ w ∈ acc ∨ w = x := by
      rw [dedupStep]
      split
      · rename_i hmem
        constructor
        · exact Or.inl
        · rintro (h | h)
          · exact h
          · exact h ▸ hmem
      · simp
    rw [hx]
    simp only [List.mem_cons]
    tauto

/-- A `dedupStep` fold from a duplicate-free accumulator has no
duplicates. -/
theorem nodup_foldl_dedupStep (l : List (Option Nat)) (acc : List (Option Nat))
    (h : acc.Nodup) : (l.foldl dedupStep acc).Nodup := by
  induction l generalizing acc with
  | nil => simpa using h
  | cons x rest ih =>
    rw [List.foldl_cons]
    apply ih
    rw [dedupStep]
    split
    · exact h
    · rename_i hx
      simp [List.nodup_append, h, hx]

/-- C7, counterexample: a breakpoint name absent from the registry is NOT
dropped: the looked-up `undefined` is pushed into the widths list (the
error is logged, but the loop continues to the duplicate check, and
`indexOf(undefined)` is `-1` on the first occurrence). -/
theorem c7_counterexample :
    (getWidthsFromBreakpointNames [("small", 600)] ["bogus"]).widths = [none] ∧
      ¬ (getWidthsFromBreakpointNames [("small", 600)] ["bogus"]).widths = [] ∧
      (getWidthsFromBreakpointNames [("small", 600)] ["bogus"]).errors =
        [breakpointErrorMessage "bogus"] := by
  exact ⟨rfl, by decide, rfl⟩

/-- C7, amended: breakpoint-name resolution maps each name to its
registered pixel width; a name not present in the registry (or registered
with width 0) logs an error but is NOT dropped — the looked-up value
(`undefined` for an unknown name) is pushed like any other width; the
resulting widths list is the first-seen-order deduplication of the
looked-up values, so each value appears at most once. -/
theorem c7_breakpoint_resolution (registeredBreakpoints : List (String × Nat))
    (names : List String) :
    (getWidthsFromBreakpointNames registeredBreakpoints names).widths =
        dedupKeepFirst (names.map (lookupBreakpoint registeredBreakpoints)) ∧
      (getWidthsFromBreakpointNames registeredBreakpoints names).errors =
        (names.filter (fun n =>
          !jsTruthyParseInt (lookupBreakpoint registeredBreakpoints n))).map
          breakpointErrorMessage ∧
      (getWidthsFromBreakpointNames registeredBreakpoints names).widths.Nodup ∧
      ∀ n ∈ names, lookupBreakpoint registeredBreakpoints n = none →
        (none : Option Nat) ∈
          (getWidthsFromBreakpointNames registeredBreakpoints names).widths := by
  refine ⟨?_, ?_, ?_, ?_⟩
  · rw [getWidthsFromBreakpointNames, widths_foldl_decompose, dedupKeepFirst]
  · rw [getWidthsFromBreakpointNames, errors_foldl_decompose]
    rfl
  · rw [getWidthsFromBreakpointNames, widths_foldl_decompose]
    exact nodup_foldl_dedupStep _ _ (by simp)
  · intro n hn hlook
    rw [getWidthsFromBreakpointNames, widths_foldl_decompose]
    rw [mem_foldl_dedupStep]
    exact Or.inr (hlook ▸ List.mem_map_of_mem _ hn)

/-- Witness for C7's amended theorem at a registry with one breakpoint
and an unknown name in the list. -/
theorem c7_breakpoint_resolution_witness :
    (getWidthsFromBreakpointNames [("small", 600)] ["bogus", "small", "small"]).widths =
        dedupKeepFirst
          (["bogus", "small", "small"].map (lookupBreakpoint [("small", 600)])) ∧
      (none : Option Nat) ∈
        (getWidthsFromBreakpointNames [("small", 600)]
          ["bogus", "small", "small"]).widths :=
  ⟨(c7_breakpoint_resolution [("small", 600)] ["bogus", "small", "small"]).1,
   (c7_breakpoint_resolution [("small", 600)] ["bogus", "small", "small"]).2.2.2
     "bogus" (by decide) rfl⟩

/-! ## Response shape and `parseMissingResources` -/

/-- The `'missing-resources'` relationship object: `{data: [...]}`. -/
structure MissingResourcesField where
  data : Option (List MissingResource)
deriving Repr, DecidableEq

/-- The `relationships` object of a response's `data`. -/
structure Relationships where
  missingResources : Option MissingResourcesField
deriving Repr, DecidableEq

/-- The `data` object of a create-build / create-snapshot response body. -/
structure ResponseData where
  id : String
  relationships : Option Relationships
deriving Repr, DecidableEq

/-- A response `body`. -/
structure ResponseBody where
  data : Option ResponseData
deriving Repr, DecidableEq

/-- A gateway response.  Each link of the chain
`body.data.relationships['missing-resources'].data` may be absent
(`none` models the JS `undefined`/`null` falsy values). -/
structure Response where
  body : ResponseBody
deriving Repr, DecidableEq

/-- `parseMissingResources(response)`: the `&&`-chain
`response.body.data && ...relationships && ...['missing-resources'] &&
....data || []` — any absent link short-circuits to `[]`. -/
def parseMissingResources (response : Response) : List MissingResource :=
  match response.body.data with
  | none => []
  | some d =>
    match d.relationships with
    | none => []
    | some rel =>
      match rel.missingResources with
      | none => []
      | some mr =>
        match mr.data with
        | none => []
        | some l => l

/-- The upload decision of `setup`:
`if (missingResources && missingResources.length > 0)` guards the call to
`uploadMissingResources` (the parsed value is always an array, hence
truthy, so only the length test matters). -/
def setupAttemptsUpload (buildResponse : Response) : Bool :=
  decide ((parseMissingResources buildResponse).length > 0)

/-- A response whose body has no `data` field at all. -/
def responseNoData : Response := { body := { data := none } }

/-! ## Promise-timing models of `uploadHtml` and `finalizeBuild`

Cooperative single-threaded scheduling is modelled by settle times:
every promise settles at a `Nat` time, `Promise.all` settles at the
maximum settle time of the promises in the array at the moment it is
evaluated, and a continuation chained with `.then`/`await` runs at a
time that is at least the settle time of what it waits on (`d` arguments
are arbitrary additional scheduler delays). -/

/-- Settle time of `Promise.all` over an array of settle times. -/
def listMax (l : List Nat) : Nat := l.foldr max 0

/-- Every promise of the array has settled by the time `Promise.all`
settles. -/
theorem le_listMax {l : List Nat} {t : Nat} (ht : t ∈ l) : t ≤ listMax l := by
  induction l with
  | nil => simp at ht
  | cons x rest ih =>
    rcases List.mem_cons.mp ht with h | h
    · rw [h]
      exact le_max_left x (listMax rest)
    · exact le_trans (ih h) (le_max_right x (listMax rest))

/-- Observable trace of one `uploadHtml` call. -/
structure UploadHtmlTrace where
  uploadIssued : Bool
  callbackTime : Nat
  finalizeSnapshotTime : Nat
deriving Repr, DecidableEq

/-- `uploadHtml(buildId, snapshotId, htmlResource, missingResources,
callback)` as a timing model.  `startTime` is when the call runs (inside
the create-snapshot `.then`); `buildResourceSettleTimes` are the settle
times of the promises in `buildResourceUploadPromises` at the moment
`Promise.all` over that array is evaluated (the array is append-only, so
this is a superset of the promises recorded at the snapshot's creation);
`uploadSettleTime` is when the root-resource upload settles; `d₁`, `d₂`
are the scheduler delays of the two chained continuations.

In the missing branch the source runs `callback()` when the upload
settles and then finalizes the snapshot once `Promise.all` of the build
resource uploads settles; in the nothing-missing branch it chains the
finalize on `Promise.all` directly and runs `callback()` synchronously. -/
def uploadHtml (startTime : Nat) (missingResources : List MissingResource)
    (buildResourceSettleTimes : List Nat) (uploadSettleTime : Nat)
    (d₁ d₂ : Nat) : UploadHtmlTrace :=
  if missingResources.length > 0 then
    let tCallback := max startTime uploadSettleTime + d₁
    let tFinalize := max tCallback (listMax buildResourceSettleTimes) + d₂
    { uploadIssued := true, callbackTime := tCallback,
      finalizeSnapshotTime := tFinalize }
  else
    { uploadIssued := false, callbackTime := startTime,
      finalizeSnapshotTime :=
        max startTime (listMax buildResourceSettleTimes) + d₂ }

/-- C1: in both branches of `uploadHtml`, the `finalizeSnapshot` gateway
call is never issued before every build-resource upload promise recorded
in `buildResourceUploadPromises` at the snapshot's creation time has
settled (the array is append-only, so the set at creation time is
contained in the set `Promise.all` is evaluated over). -/
theorem c1_finalize_after_known_build_uploads
    (creationSettleTimes currentSettleTimes : List Nat)
    (hsub : ∀ t ∈ creationSettleTimes, t ∈ currentSettleTimes)
    (startTime uploadSettleTime d₁ d₂ : Nat)
    (missingResources : List MissingResource) :
    ∀ t ∈ creationSettleTimes,
      t ≤ (uploadHtml startTime missingResources currentSettleTimes
            uploadSettleTime d₁ d₂).finalizeSnapshotTime := by
  intro t ht
  have h1 : t ≤ listMax currentSettleTimes := le_listMax (hsub t ht)
  rw [uploadHtml]
  split
  · exact le_trans h1 (le_trans (le_max_right _ _) (Nat.le_add_right _ _))
  · exact le_trans h1 (le_trans (le_max_right _ _) (Nat.le_add_right _ _))

/-- Witness for C1 at concrete settle times, in the missing-resource
branch. -/
theorem c1_finalize_after_known_build_uploads_witness :
    (7 : Nat) ≤ (uploadHtml 1 [{ id := "roothash" }] [3, 7] 2 0 0).finalizeSnapshotTime :=
  c1_finalize_after_known_build_uploads [7] [3, 7] (by decide) 1 2 0 0
    [{ id := "roothash" }] 7 (by decide)

/-- Terminal outcome of a `finalizeBuild` call. -/
inductive FinalizeOutcome where
  | completed (finishTime : Nat)
  | exitedProcess
deriving Repr, DecidableEq

/-- Observable result of one `finalizeBuild` call. -/
structure FinalizeBuildResult where
  outcome : FinalizeOutcome
  gatewayFinalizeTime : Option Nat
  getBuildCalled : Bool
  isPercyEnabledAfter : Bool
deriving Repr, DecidableEq

/-- `finalizeBuild(getDiffs)` as a timing model.  `buildSettleTime` is
`some t` when `percyBuildPromise` fulfils at `t` and `none` when it
rejects (then the `catch` runs `handlePercyFailure`, which disables the
client and exits).  `snapshotResourceSettleTimes` are the settle times of
the promises in `snapshotResourceUploadPromises` when `Promise.all` is
evaluated (under the documented precondition that no `snapshot()` call is
concurrent with finalization, these are exactly the futures registered
before the call).  `finalizeCallSucceeds` tells whether the gateway
finalize call fulfils; on rejection `handlePercyFailure` exits.  The
optional poll loop (`getDiffs`) is modelled separately by
`checkBuildStatus`; here only the fact that `getBuildPromise` is invoked
is recorded. -/
def finalizeBuild (getDiffs : Bool) (callTime : Nat)
    (buildSettleTime : Option Nat) (snapshotResourceSettleTimes : List Nat)
    (finalizeCallSucceeds : Bool) (d₁ d₂ : Nat) : FinalizeBuildResult :=
  match buildSettleTime with
  | none =>
    { outcome := FinalizeOutcome.exitedProcess, gatewayFinalizeTime := none,
      getBuildCalled := false, isPercyEnabledAfter := false }
  | some bt =>
    let t₁ := max callTime bt + d₁
    let t₂ := max t₁ (listMax snapshotResourceSettleTimes) + d₂
    if finalizeCallSucceeds then
      { outcome := FinalizeOutcome.completed t₂, gatewayFinalizeTime := some t₂,
        getBuildCalled := getDiffs, isPercyEnabledAfter := false }
    else
      { outcome := FinalizeOutcome.exitedProcess, gatewayFinalizeTime := some t₂,
        getBuildCalled := false, isPercyEnabledAfter := false }

/-- C2: `finalizeBuild` awaits the build promise and then every
snapshot-ready future in the pending set before issuing the gateway
finalize-build call: whenever that call is issued (at `ft`), the build
promise and every registered future have already settled. -/
theorem c2_finalize_waits_for_snapshots (getDiffs : Bool) (callTime bt : Nat)
    (snapshotResourceSettleTimes : List Nat) (finalizeCallSucceeds : Bool)
    (d₁ d₂ : Nat) {ft : Nat}
    (hft : (finalizeBuild getDiffs callTime (some bt)
        snapshotResourceSettleTimes finalizeCallSucceeds d₁ d₂).gatewayFinalizeTime =
      some ft) :
    bt ≤ ft ∧ ∀ t ∈ snapshotResourceSettleTimes, t ≤ ft := by
  have hbase : ∀ s ∈ snapshotResourceSettleTimes,
      s ≤ max (max callTime bt + d₁) (listMax snapshotResourceSettleTimes) + d₂ :=
    fun s hs =>
      le_trans (le_listMax hs) (le_trans (le_max_right _ _) (Nat.le_add_right _ _))
  have hbt : bt ≤ max (max callTime bt + d₁)
      (listMax snapshotResourceSettleTimes) + d₂ :=
    le_trans (le_max_right callTime bt)
      (le_trans (Nat.le_add_right _ _)
        (le_trans (le_max_left _ _) (Nat.le_add_right _ _)))
  simp only [finalizeBuild] at hft
  split at hft <;>
    (injection hft with hft; subst hft; exact ⟨hbt, hbase⟩)

/-- Witness for C2 at concrete settle times. -/
theorem c2_finalize_waits_for_snapshots_witness :
    (5 : Nat) ≤ 9 ∧ ∀ t ∈ [9], t ≤ 9 :=
  c2_finalize_waits_for_snapshots true 0 5 [9] true 0 0 rfl

/-- C9: `finalizeBuild(false)` never invokes the build-status endpoint:
`getBuildPromise` (and hence `percyClient.getBuild`) is only reached
under `if (getDiffs)`. -/
theorem c9_no_status_poll_without_flag (callTime : Nat)
    (buildSettleTime : Option Nat) (snapshotResourceSettleTimes : List Nat)
    (finalizeCallSucceeds : Bool) (d₁ d₂ : Nat) :
    (finalizeBuild false callTime buildSettleTime snapshotResourceSettleTimes
        finalizeCallSucceeds d₁ d₂).getBuildCalled = false := by
  rcases buildSettleTime with _ | bt
  · rfl
  · simp only [finalizeBuild]
    split <;> rfl

/-! ## The snapshot coordinator: `snapshot` -/

/-- Outcome of the `percyClient.createSnapshot` promise: fulfilled with a
response, or rejected with an error whose `statusCode` may be absent. -/
inductive CreateSnapshotOutcome where
  | ok (snapshotId : String) (response : Response)
  | err (statusCode : Option Nat)
deriving Repr, DecidableEq

/-- Observable trace of one `snapshot()` call.  `promiseRegistered`
records the synchronous push of `htmlResourceUploadedPromise` onto
`snapshotResourceUploadPromises`; `htmlResourceContent` is the content of
the root resource built once the build promise fulfils;
`snapshotReadyResolved` records whether
`resolveAfterHtmlResourceUploaded` is (eventually) called;
`warningMessage` is the `console.warn` text of the 400 path. -/
structure SnapshotTrace where
  promiseRegistered : Bool
  widths : List (Option Nat)
  enableJs : Bool
  htmlResourceContent : Option String
  createSnapshotIssued : Bool
  htmlUploadIssued : Bool
  finalizeSnapshotIssued : Bool
  warningMessage : Option String
  snapshotReadyResolved : Bool
  fatalExit : Bool
deriving Repr, DecidableEq

/-- `snapshot(name, content, opt_breakpoints, opt_enableJs)`.
`isPercyEnabled` records the ambient process-wide flag at call time;
the source never reads it inside `snapshot`, so the trace does not
depend on it.  `buildFulfilled` tells whether `percyBuildPromise`
fulfils (the `.then` has no rejection handler, so nothing below runs
when it rejects); `createResult` is the outcome of the create-snapshot
gateway call.  In the fulfilled case the later `uploadHtml` behaviour is
the timing model above; here the trace records which gateway calls are
eventually issued on each path. -/
def snapshot (isPercyEnabled : Bool)
    (registeredBreakpoints : List (String × Nat)) (name content : String)
    (optBreakpoints : Option (List String)) (optEnableJs : Option Bool)
    (buildFulfilled : Bool) (createResult : CreateSnapshotOutcome) :
    SnapshotTrace :=
  let enableJs := optEnableJs.getD false
  let defaultBreakpointNames := registeredBreakpoints.map Prod.fst
  let breakpointNamesList := optBreakpoints.getD defaultBreakpointNames
  let widths :=
    (getWidthsFromBreakpointNames registeredBreakpoints breakpointNamesList).widths
  if buildFulfilled then
    match createResult with
    | CreateSnapshotOutcome.ok _ response =>
      let missingResources := parseMissingResources response
      { promiseRegistered := true, widths := widths, enableJs := enableJs,
        htmlResourceContent := some content, createSnapshotIssued := true,
        htmlUploadIssued := decide (missingResources.length > 0),
        finalizeSnapshotIssued := true, warningMessage := none,
        snapshotReadyResolved := true, fatalExit := false }
    | CreateSnapshotOutcome.err statusCode =>
      match statusCode with
      | some c =>
        if c = 400 then
          { promiseRegistered := true, widths := widths, enableJs := enableJs,
            htmlResourceContent := some content, createSnapshotIssued := true,
            htmlUploadIssued := false, finalizeSnapshotIssued := false,
            warningMessage := some
              ("[percy][WARNING] Bad request error, skipping snapshot: " ++ name),
            snapshotReadyResolved := true, fatalExit := false }
        else
          { promiseRegistered := true, widths := widths, enableJs := enableJs,
            htmlResourceContent := some content, createSnapshotIssued := true,
            htmlUploadIssued := false, finalizeSnapshotIssued := false,
            warningMessage := none, snapshotReadyResolved := false,
            fatalExit := true }
      | none =>
        { promiseRegistered := true, widths := widths, enableJs := enableJs,
          htmlResourceContent := some content, createSnapshotIssued := true,
          htmlUploadIssued := false, finalizeSnapshotIssued := false,
          warningMessage := none, snapshotReadyResolved := false,
          fatalExit := true }
  else
    { promiseRegistered := true, widths := widths, enableJs := enableJs,
      htmlResourceContent := none, createSnapshotIssued := false,
      htmlUploadIssued := false, finalizeSnapshotIssued := false,
      warningMessage := none, snapshotReadyResolved := false,
      fatalExit := false }

/-- C5: a create-snapshot failure with status code 400 logs a warning,
skips the snapshot (no upload, no finalizeSnapshot) and still settles the
snapshot-ready future, so `finalizeBuild` can proceed and complete; a
failure with any other status code (or with no status code at all) takes
the fatal `handlePercyFailure` path. -/
theorem c5_client_error_recoverable (isPercyEnabled : Bool)
    (registeredBreakpoints : List (String × Nat)) (name content : String)
    (optBreakpoints : Option (List String)) (optEnableJs : Option Bool)
    (statusCode : Option Nat) :
    (statusCode = some 400 →
      (snapshot isPercyEnabled registeredBreakpoints name content optBreakpoints
          optEnableJs true (CreateSnapshotOutcome.err statusCode)).warningMessage =
        some ("[percy][WARNING] Bad request error, skipping snapshot: " ++ name) ∧
      (snapshot isPercyEnabled registeredBreakpoints name content optBreakpoints
          optEnableJs true (CreateSnapshotOutcome.err statusCode)).htmlUploadIssued =
        false ∧
      (snapshot isPercyEnabled registeredBreakpoints name content optBreakpoints
          optEnableJs true
          (CreateSnapshotOutcome.err statusCode)).finalizeSnapshotIssued = false ∧
      (snapshot isPercyEnabled registeredBreakpoints name content optBreakpoints
          optEnableJs true
          (CreateSnapshotOutcome.err statusCode)).snapshotReadyResolved = true ∧
      (snapshot isPercyEnabled registeredBreakpoints name content optBreakpoints
          optEnableJs true (CreateSnapshotOutcome.err statusCode)).fatalExit =
        false ∧
      ∀ callTime bt st d₁ d₂, ∃ ft,
        (finalizeBuild false callTime (some bt) [st] true d₁ d₂).outcome =
          FinalizeOutcome.completed ft) ∧
    (∀ c, statusCode = some c → c ≠ 400 →
      (snapshot isPercyEnabled registeredBreakpoints name content optBreakpoints
          optEnableJs true (CreateSnapshotOutcome.err statusCode)).fatalExit =
        true) ∧
    (statusCode = none →
      (snapshot isPercyEnabled registeredBreakpoints name content optBreakpoints
          optEnableJs true (CreateSnapshotOutcome.err statusCode)).fatalExit =
        true) := by
  refine ⟨?_, ?_, ?_⟩
  · intro h400
    subst h400
    refine ⟨rfl, rfl, rfl, rfl, rfl, ?_⟩
    intro callTime bt st d₁ d₂
    exact ⟨_, rfl⟩
  · intro c hc hne
    subst hc
    simp only [snapshot, if_pos]
    rw [if_neg hne]
  · intro hnone
    subst hnone
    rfl

/-- Witness for C5 at a 400 error and at a 500 error. -/
theorem c5_client_error_recoverable_witness :
    (snapshot true [("small", 600)] "carousel" "<div/>" none none true
        (CreateSnapshotOutcome.err (some 400))).snapshotReadyResolved = true ∧
      (snapshot true [("small", 600)] "carousel" "<div/>" none none true
        (CreateSnapshotOutcome.err (some 400))).finalizeSnapshotIssued = false ∧
      (snapshot true [("small", 600)] "carousel" "<div/>" none none true
        (CreateSnapshotOutcome.err (some 500))).fatalExit = true :=
  ⟨((c5_client_error_recoverable true [("small", 600)] "carousel" "<div/>"
      none none (some 400)).1 rfl).2.2.2.1,
   ((c5_client_error_recoverable true [("small", 600)] "carousel" "<div/>"
      none none (some 400)).1 rfl).2.2.1,
   (c5_client_error_recoverable true [("small", 600)] "carousel" "<div/>"
      none none (some 500)).2.1 500 rfl (by decide)⟩

/-- C8: the code bug.  After `finalizeBuild` completes the process-wide
`isPercyEnabled` flag is indeed false, but `snapshot()` never reads that
flag: a subsequent `snapshot()` call still registers its promise and
still issues the create-snapshot gateway call, contradicting both the
claim and the source's own comment ("Avoid trying to add snapshots to an
already-finalized build"). -/
theorem c8_flag_not_enforced :
    (finalizeBuild false 0 (some 0) [] true 0 0).isPercyEnabledAfter = false ∧
      (snapshot false [("small", 600)] "after-finalize" "<html/>" none none true
        (CreateSnapshotOutcome.ok "snap1" responseNoData)).createSnapshotIssued =
        true ∧
      (snapshot false [("small", 600)] "after-finalize" "<html/>" none none true
        (CreateSnapshotOutcome.ok "snap1" responseNoData)).promiseRegistered =
        true := by
  exact ⟨rfl, rfl, rfl⟩

/-- C10: a response body lacking any link of the chain
`data → relationships → 'missing-resources' → data` parses to the empty
missing-resource list, `setup` then skips `uploadMissingResources`, and
`uploadHtml` takes its nothing-missing branch (no upload attempted). -/
theorem c10_absent_chain_is_empty (r : Response)
    (h : r.body.data = none ∨
      ∃ d, r.body.data = some d ∧ (d.relationships = none ∨
        ∃ rel, d.relationships = some rel ∧ (rel.missingResources = none ∨
          ∃ mr, rel.missingResources = some mr ∧ mr.data = none))) :
    parseMissingResources r = [] ∧
      setupAttemptsUpload r = false ∧
      ∀ startTime buildResourceSettleTimes uploadSettleTime d₁ d₂,
        (uploadHtml startTime (parseMissingResources r)
            buildResourceSettleTimes uploadSettleTime d₁ d₂).uploadIssued =
          false := by
  have hparse : parseMissingResources r = [] := by
    rcases h with h | ⟨d, hd, h | ⟨rel, hrel, h | ⟨mr, hmr, h⟩⟩⟩ <;>
      simp [parseMissingResources, *]
  refine ⟨hparse, ?_, ?_⟩
  · rw [setupAttemptsUpload, hparse]
    rfl
  · intro startTime buildResourceSettleTimes uploadSettleTime d₁ d₂
    rw [hparse, uploadHtml]
    rfl

/-- Witness for C10 at a response with no `data` field. -/
theorem c10_absent_chain_is_empty_witness :
    parseMissingResources responseNoData = [] ∧
      setupAttemptsUpload responseNoData = false ∧
      (uploadHtml 0 (parseMissingResources responseNoData) [4] 2 0 0).uploadIssued =
        false :=
  ⟨(c10_absent_chain_is_empty responseNoData (Or.inl rfl)).1,
   (c10_absent_chain_is_empty responseNoData (Or.inl rfl)).2.1,
   (c10_absent_chain_is_empty responseNoData (Or.inl rfl)).2.2 0 [4] 2 0 0⟩

end Percy
